import Mathlib

/-!
Verification of the encrypted financial planning tool (client/server, BFV).

The development shallowly embeds the orchestration logic of the repository:

* the fixed-point codec discipline (`round(d * SCALE_FACTOR)` scaling,
  descaling by powers of the scale factor) — `client.cpp`, `server.cpp`;
* the length-prefixed framed transport (`send_data` / `receive_data`) at the
  byte level — `server.cpp` lines 19-51, `client.cpp` lines 22-45;
* the compute party's session logic at the frame level: the ordered
  handshake (parameters, public key, relinearization keys, Galois keys),
  the payload reads, the homomorphic pipeline on the underlying scaled
  integers, and the sequential result sends — `server.cpp`;
* the owner-side frame sequence — `client.cpp` and the two-input client
  variant.

Homomorphic values are modelled by the scaled integer they carry in the
first batching slot: SEAL's `Evaluator::add/sub/sub_plain/multiply_plain`
act slot-wise on the encoded integers, and `relinearize` does not change
the carried value.  Doubles are modelled exactly as rationals; C's
`round` rounds half away from zero.
-/

namespace FinTool

/-! ## Fixed-point codec -/

/-- C's `round` on an exact (rational) argument: round to the nearest
integer, ties away from zero. Used by `static_cast<int64_t>(round(x * SCALE_FACTOR))`
in `client.cpp` (lines 191, 216, 225, 240) and `server.cpp` (line 411). -/
def roundHalfAway (q : ℚ) : ℤ :=
  if 0 ≤ q then ⌊q + 1 / 2⌋ else -⌊-q + 1 / 2⌋

/-- The fixed scale factor `SCALE_FACTOR = 100.0` used on both sides. -/
def SCALE_FACTOR : ℚ := 100

/-- A scaled integer together with its scale exponent (the count of
decimal-scaling multiplications applied).  The exponent is implicit in the
C++ code — it is the power of `SCALE_FACTOR` the client divides by when
descaling a given protocol position — and is made explicit here. -/
structure ScaledAmount where
  value : ℤ
  exponent : ℕ
  deriving Repr, DecidableEq

/-- Scaling a decimal amount for the encrypted domain:
`static_cast<int64_t>(round(decimal * scaleFactor))`, carrying scale
exponent 1 (`client.cpp` line 191 and friends). -/
def toScaled (d s : ℚ) : ScaledAmount :=
  ⟨roundHalfAway (d * s), 1⟩

/-- Descaling for display: divide by `scaleFactor ^ exponent`
(`client.cpp` line 304: `/ SCALE_FACTOR`; two-input client line 289:
`/ (SCALE_FACTOR * SCALE_FACTOR)`). -/
def fromScaled (a : ScaledAmount) (s : ℚ) : ℚ :=
  (a.value : ℚ) / s ^ a.exponent

/-- Codec contract violation: combining amounts at different scale
exponents. -/
inductive ScaleError where
  | scaleMismatch
  deriving Repr, DecidableEq

/-- Modelled from the spec: `combineAdd(a, b)` of the Fixed-Point Codec
(§4.1) — requires matching exponents, else fails with `ScaleMismatch`;
result exponent unchanged.  No function of the C++ source implements this
check; this definition follows the spec's words and is compared against
the source's operations. -/
def combineAdd (a b : ScaledAmount) : Except ScaleError ScaledAmount :=
  if a.exponent = b.exponent then .ok ⟨a.value + b.value, a.exponent⟩
  else .error .scaleMismatch

/-- Modelled from the spec: `combineSub(a, b)` of the Fixed-Point Codec
(§4.1), like `combineAdd`. -/
def combineSub (a b : ScaledAmount) : Except ScaleError ScaledAmount :=
  if a.exponent = b.exponent then .ok ⟨a.value - b.value, a.exponent⟩
  else .error .scaleMismatch

/-- Modelled from the spec: `combineMul(a, b)` of the Fixed-Point Codec
(§4.1) — sums exponents, multiplies magnitudes. -/
def combineMul (a b : ScaledAmount) : ScaledAmount :=
  ⟨a.value * b.value, a.exponent + b.exponent⟩

/-! ## Homomorphic operations on the underlying scaled integers

SEAL's BFV evaluator acts slot-wise on the encoded integers.  Each
ciphertext / plaintext of this protocol carries one scaled integer
replicated across slots, so every evaluator call is modelled by its
effect on that integer.  None of these operations represents or checks a
scale exponent, and none has a failure path. -/

/-- Model of `evaluator.add` (`server.cpp` line 187): slot-wise addition. -/
def evaluatorAdd (a b : ℤ) : ℤ := a + b

/-- Model of `evaluator.sub` / `evaluator.sub_plain` (`server.cpp` lines 192, 197,
407): slot-wise subtraction. -/
def evaluatorSub (a b : ℤ) : ℤ := a - b

/-- Model of `evaluator.multiply_plain` (`server.cpp` line 418): slot-wise
multiplication by an encoded constant. -/
def multiplyPlain (c p : ℤ) : ℤ := c * p

/-- Model of `evaluator.relinearize` (`server.cpp` line 420): reduces ciphertext
size, leaves the carried value unchanged. -/
def relinearize (c : ℤ) : ℤ := c

/-! ## Byte-level framed transport

`send_data` / `receive_data` (`server.cpp` lines 19-51, identical in
`client.cpp` lines 22-45) exchange a raw `size_t` length header — eight
bytes, little-endian on the target platform — followed by that many
payload bytes.  Bytes are `ℕ` values below 256.  The byte stream offered
to a receiver is a `Channel`: the bytes that arrive before the stream
ends, plus what `recv` reports once they are exhausted. -/

/-- What the peer's `recv` observes after the buffered bytes run out. -/
inductive Fault where
  /-- The connection stays open but no further byte ever arrives: a
  blocking `recv` that still wants data never returns. -/
  | live
  /-- Orderly peer closure: `recv` returns the bytes read so far (possibly
  zero), never `-1`. -/
  | closed
  /-- An I/O error: `recv` returns `-1` when no byte was transferred. -/
  | ioErr
  deriving Repr, DecidableEq

/-- A receiver's view of the socket: every byte that will ever arrive,
and what `recv` does once they are exhausted. -/
structure Channel where
  data : List ℕ
  fault : Fault
  deriving Repr, DecidableEq

/-- Outcome of one blocking `recv(..., MSG_WAITALL)` call. -/
inductive RecvOut where
  /-- Call returned `bs.length` with `bs` in the buffer. -/
  | ret (bs : List ℕ)
  /-- Call returned `-1`. -/
  | err
  /-- Call blocks forever. -/
  | hangs
  deriving Repr, DecidableEq

/-- Model of `recv(sock, buf, n, MSG_WAITALL)`: blocks until `n` bytes arrived, the
peer closed, or an error occurred.  A short read (`bs.length < n`) happens
when the stream ends first. -/
def recvWaitAll (n : ℕ) (ch : Channel) : RecvOut × Channel :=
  if n ≤ ch.data.length then
    (.ret (ch.data.take n), ⟨ch.data.drop n, ch.fault⟩)
  else
    match ch.fault with
    | .live => (.hangs, ch)
    | .closed => (.ret ch.data, ⟨[], .closed⟩)
    | .ioErr =>
        if ch.data.isEmpty then (.err, ch) else (.ret ch.data, ⟨[], .ioErr⟩)

/-- The little-endian byte image of a `size_t` value, as sent by
`send(sock, &data_size, sizeof(data_size), 0)` on a 64-bit platform. -/
def bytesOfSize (n : ℕ) : List ℕ :=
  [n % 256, n / 256 % 256, n / 65536 % 256, n / 16777216 % 256,
   n / 4294967296 % 256, n / 1099511627776 % 256,
   n / 281474976710656 % 256, n / 72057594037927936 % 256]

/-- The `size_t` value stored in a little-endian byte buffer. -/
def sizeOfBytes (bs : List ℕ) : ℕ :=
  bs.foldr (fun b acc => b + 256 * acc) 0

/-- Model of `send_data(sock, data)` (`server.cpp` lines 19-32): the byte sequence
written to the socket — the eight-byte length header followed by the
payload. -/
def send_data (x : List ℕ) : List ℕ :=
  bytesOfSize x.length ++ x

/-- Outcome of one `receive_data` call. -/
inductive RecvDataOut where
  /-- Returned `""` from one of the two `== -1` checks. -/
  | err
  /-- Returned the assembled string `s`. -/
  | frame (s : List ℕ)
  /-- A `recv` call inside never returned. -/
  | hangs
  deriving Repr, DecidableEq

/-- Model of `receive_data(sock)` (`server.cpp` lines 35-51).  The source
1. reads `sizeof(size_t)` bytes into the stack variable `data_size`,
   returning `""` only when `recv` returned `-1` — a short read leaves the
   remaining bytes of `data_size` holding the uninitialized stack contents
   `junkHdr`;
2. value-initializes `vector<char> buffer(data_size)` (all zero bytes) and
   reads `data_size` bytes into it, again returning `""` only on `-1`;
3. returns all `data_size` buffer bytes, read or not. -/
def receive_data (junkHdr : List ℕ) (ch : Channel) :
    RecvDataOut × Channel :=
  match recvWaitAll 8 ch with
  | (.err, ch1) => (.err, ch1)
  | (.hangs, ch1) => (.hangs, ch1)
  | (.ret hdr, ch1) =>
    let n := sizeOfBytes ((hdr ++ junkHdr.drop hdr.length).take 8)
    match recvWaitAll n ch1 with
    | (.err, ch2) => (.err, ch2)
    | (.hangs, ch2) => (.hangs, ch2)
    | (.ret payload, ch2) =>
        (.frame (payload ++ List.replicate (n - payload.length) 0), ch2)

/-! ## Frame-level session model

Above the framed transport the protocol is a fixed sequence of opaque
blobs, distinguished only by position.  A blob is modelled by the kind of
SEAL object its bytes serialize; ciphertexts and plaintexts additionally
carry the scaled integer in their slots.  `SecretKey` has a `save` method
in SEAL, so a serialized secret key is a representable blob — the client
code just never produces one. -/

/-- The kinds of serialized SEAL objects a frame can hold. -/
inductive Blob where
  | params
  | pubKey
  | relinKey
  | galoisKey
  | secretKey
  /-- A serialized `Ciphertext` whose slots carry the scaled integer `v`. -/
  | cipher (v : ℤ)
  /-- A serialized (encoded, unencrypted) `Plaintext` carrying `v`. -/
  | plain (v : ℤ)
  deriving Repr, DecidableEq

/-- Modelled from the spec: §6's `deserialize` contract for the external
SEAL library — `load` of a `SchemeParameters` / key / `Plaintext` /
`Ciphertext` consumes only a byte sequence produced by the matching
`serialize`, so loading a frame as an object of the wrong kind fails
(§4.3: an unparsable frame is a fatal handshake failure). -/
def Blob.loadsAs (b expected : Blob) : Bool :=
  match b, expected with
  | .params, .params => true
  | .pubKey, .pubKey => true
  | .relinKey, .relinKey => true
  | .galoisKey, .galoisKey => true
  | .secretKey, .secretKey => true
  | .cipher _, .cipher _ => true
  | .plain _, .plain _ => true
  | _, _ => false

/-- How a run of the compute party's `main` can fail. -/
inductive ServerErr where
  /-- Receive `stage` came back empty (the
  `if (str.empty()) return 1` checks). -/
  | transportRecv (stage : ℕ)
  /-- The frame at receive number `stage` did not parse as the object the
  server loads there. -/
  | parse (stage : ℕ)
  /-- A `send_data` call failed while returning results
  (the `if (!send_data(...)) return 1` checks). -/
  | transportSend
  deriving Repr, DecidableEq

/-- The stream of frames offered to the server, one `Option Blob` per
`receive_data` call: `none` when that call comes back empty (transport
failure), `some b` when it yields the blob `b`.  A stream that ends is
read as coming back empty. -/
abbrev FrameStream := List (Option Blob)

/-- One `receive_data` + `load` step of the server: empty frame ⇒
transport error, wrong kind ⇒ parse error (SEAL `load` throws, which
terminates the uncaught server process). -/
def recvLoad (expected : Blob) (stage : ℕ) (s : FrameStream) :
    Except ServerErr (Blob × FrameStream) :=
  match s with
  | [] => .error (.transportRecv stage)
  | none :: _ => .error (.transportRecv stage)
  | some b :: rest =>
      if b.loadsAs expected then .ok (b, rest) else .error (.parse stage)

/-- The server handshake (`server.cpp` lines 99-137): receive and load, in
this fixed order, the encryption parameters, the public key, the
relinearization keys and the Galois keys.  Receives are numbered 0-3. -/
def serverHandshake (s : FrameStream) : Except ServerErr FrameStream := do
  let (_, s) ← recvLoad .params 0 s
  let (_, s) ← recvLoad .pubKey 1 s
  let (_, s) ← recvLoad .relinKey 2 s
  let (_, s) ← recvLoad .galoisKey 3 s
  pure s

/-- The payload inputs of the income/expense/goal variant, as scaled
integers. -/
structure GoalInputs where
  income : ℤ
  goal : ℤ
  essential : ℤ
  nonEssential : ℤ
  deriving Repr, DecidableEq

/-- The server's payload phase (`server.cpp` lines 150-182): receive, in
this fixed order, the encrypted total income, the encoded plaintext
savings goal, the encrypted essential expenses and the encrypted
non-essential expenses.  Receives are numbered 4-7. -/
def serverReceiveInputs (s : FrameStream) :
    Except ServerErr (GoalInputs × FrameStream) :=
  match recvLoad (.cipher 0) 4 s with
  | .error e => .error e
  | .ok (bIncome, s) =>
    match recvLoad (.plain 0) 5 s with
    | .error e => .error e
    | .ok (bGoal, s) =>
      match recvLoad (.cipher 0) 6 s with
      | .error e => .error e
      | .ok (bEss, s) =>
        match recvLoad (.cipher 0) 7 s with
        | .error e => .error e
        | .ok (bNonEss, s) =>
          match bIncome, bGoal, bEss, bNonEss with
          | .cipher i, .plain g, .cipher e, .cipher n => .ok (⟨i, g, e, n⟩, s)
          | _, _, _, _ => .error (.parse 7)

/-- The encrypted results of the income/expense/goal variant, as the
scaled integers their slots carry. -/
structure GoalOutputs where
  totalExpenses : ℤ
  netIncome : ℤ
  goalDifference : ℤ
  essentialEcho : ℤ
  nonEssentialEcho : ℤ
  deriving Repr, DecidableEq

/-- The homomorphic pipeline of the income/expense/goal variant
(`server.cpp` lines 184-199) together with the two received ciphertexts
sent back unchanged (lines 219-228):
`evaluator.add(essential, nonEssential)`,
`evaluator.sub(totalIncome, totalExpenses)`,
`evaluator.sub_plain(netIncome, savingsGoal)`. -/
def serverCompute (inp : GoalInputs) : GoalOutputs :=
  let totalExpenses := evaluatorAdd inp.essential inp.nonEssential
  let netIncome := evaluatorSub inp.income totalExpenses
  let goalDifference := evaluatorSub netIncome inp.goal
  ⟨totalExpenses, netIncome, goalDifference, inp.essential, inp.nonEssential⟩

/-- The result frames of the income/expense/goal variant, in send order
(`server.cpp` lines 201-228). -/
def resultFrames (out : GoalOutputs) : List Blob :=
  [.cipher out.totalExpenses, .cipher out.netIncome,
   .cipher out.goalDifference, .cipher out.essentialEcho,
   .cipher out.nonEssentialEcho]

/-- The server's sequential result sends with early return on failure
(`if (!send_data(...)) return 1;`).  `failAt = some k` makes the send with
index `i + k` fail; frames before it are delivered, the failing one and
everything after are not.  Returns the delivered frames and whether all
sends succeeded. -/
def sendAllFrom (frames : List Blob) (i : ℕ) (failAt : Option ℕ) :
    List Blob × Bool :=
  match frames with
  | [] => ([], true)
  | f :: rest =>
      if failAt = some i then ([], false)
      else (f :: (sendAllFrom rest (i + 1) failAt).1,
            (sendAllFrom rest (i + 1) failAt).2)

/-- One full run of the income/expense/goal server `main`
(`server.cpp` lines 99-228, after the socket bootstrap): handshake,
payload phase, pipeline, result sends.  Returns the frames actually
delivered to the owner and the error, if any, the run ended with. -/
def serverIncomeGoalMain (s : FrameStream) (failAt : Option ℕ) :
    List Blob × Option ServerErr :=
  match serverHandshake s with
  | .error e => ([], some e)
  | .ok s1 =>
    match serverReceiveInputs s1 with
    | .error e => ([], some e)
    | .ok (inp, _) =>
      let (delivered, ok) := sendAllFrom (resultFrames (serverCompute inp)) 0 failAt
      (delivered, if ok then none else some .transportSend)

/-- The savings rate constant the two-input server scales and encodes
itself (`server.cpp` lines 410-414):
`static_cast<int64_t>(round(0.15 * SCALE_FACTOR))`. -/
def savingsRateScaled : ℤ := roundHalfAway ((15 / 100 : ℚ) * SCALE_FACTOR)

/-- The two-input variant's pipeline (`server.cpp` lines 405-421):
`evaluator.sub(income, expense)`, then
`relinearize(multiply_plain(income, encodedSavingsRate))`. -/
def serverTwoInputCompute (income expense : ℤ) : ℤ × ℤ :=
  (evaluatorSub income expense,
   relinearize (multiplyPlain income savingsRateScaled))

/-! ## Owner side -/

/-- The complete sequence of frames the income/expense/goal client writes
to the socket, in program order (`client.cpp` lines 133-263): parameters,
public key, relinearization keys, Galois keys, then the encrypted total
income, the encoded savings goal, and the two encrypted expense sums.
The arguments are the already scaled integers. -/
def clientSentFramesGoal (income goal essential nonEssential : ℤ) :
    List Blob :=
  [.params, .pubKey, .relinKey, .galoisKey,
   .cipher income, .plain goal, .cipher essential, .cipher nonEssential]

/-- The complete sequence of frames the two-input client writes to the
socket, in program order (two-input client, lines 128-247): parameters,
public key, relinearization keys, then the encrypted income and expense
vectors. -/
def clientSentFramesTwoInput (income expense : ℤ) : List Blob :=
  [.params, .pubKey, .relinKey, .cipher income, .cipher expense]

/-- Decrypt-and-decode of one received result frame, as the client does it
(`client.cpp` lines 299-332): load the ciphertext, decrypt, decode, take
the first slot.  Fails on an absent or non-ciphertext frame. -/
def clientDecodeCipher (b : Option Blob) : Option ℤ :=
  match b with
  | some (.cipher v) => some v
  | _ => none

/-! ## Theorems -/

/-- Rounding moves the argument by at most one half. -/
theorem abs_roundHalfAway_sub_le (q : ℚ) :
    |(roundHalfAway q : ℚ) - q| ≤ 1 / 2 := by
  rw [roundHalfAway]
  split_ifs with h
  · have h1 := Int.floor_le (q + 1 / 2)
    have h2 := Int.lt_floor_add_one (q + 1 / 2)
    rw [abs_le]
    refine ⟨by linarith, by linarith⟩
  · have h1 := Int.floor_le (-q + 1 / 2)
    have h2 := Int.lt_floor_add_one (-q + 1 / 2)
    rw [abs_le]
    push_cast
    refine ⟨by linarith, by linarith⟩

/-- Rounding yields a nearest integer. -/
theorem roundHalfAway_nearest (q : ℚ) (m : ℤ) :
    |(roundHalfAway q : ℚ) - q| ≤ |(m : ℚ) - q| := by
  rcases eq_or_ne m (roundHalfAway q) with rfl | hne
  · exact le_refl _
  · have hb := abs_roundHalfAway_sub_le q
    have hone : (1 : ℚ) ≤ |(m : ℚ) - (roundHalfAway q : ℚ)| := by
      have h0 : m - roundHalfAway q ≠ 0 := sub_ne_zero.mpr hne
      have h1 : (1 : ℤ) ≤ |m - roundHalfAway q| := Int.one_le_abs h0
      calc (1 : ℚ) = ((1 : ℤ) : ℚ) := by norm_num
        _ ≤ ((|m - roundHalfAway q| : ℤ) : ℚ) := by exact_mod_cast h1
        _ = |(m : ℚ) - (roundHalfAway q : ℚ)| := by push_cast; ring_nf
    have htri : |(m : ℚ) - (roundHalfAway q : ℚ)| ≤
        |(m : ℚ) - q| + |q - (roundHalfAway q : ℚ)| :=
      abs_sub_le _ q _
    rw [abs_sub_comm q] at htri
    linarith

/-- C5 counterexample: the claim requires every peer closure and every
oversized length header to surface as an error result, never as a hang
or a successfully returned frame.  But `receive_data` only checks
`recv == -1`: (i) on a channel the peer closed before sending anything,
with the uninitialized `data_size` stack memory holding the value 5, it
returns a successful 5-byte zero-filled frame; (ii) there is no maximum
frame size, so a length header announcing `2 ^ 32` bytes on a connection
that stays open leaves the blocking `recv` waiting forever. -/
theorem receive_data_failure_not_surfaced :
    receive_data [5, 0, 0, 0, 0, 0, 0, 0] ⟨[], .closed⟩ =
      (.frame [0, 0, 0, 0, 0], ⟨[], .closed⟩) ∧
    (receive_data [5, 0, 0, 0, 0, 0, 0, 0] ⟨[], .closed⟩).1 ≠ .err ∧
    receive_data [0, 0, 0, 0, 0, 0, 0, 0]
        ⟨bytesOfSize 4294967296, .live⟩ =
      (.hangs, ⟨[], .live⟩) := by
  refine ⟨by decide, by decide, by decide⟩

/-- C5 amended: of the three failure conditions only an underlying I/O
error (`recv` returning `-1`, here with nothing buffered) is detected: it
surfaces as the empty result, which every caller of `receive_data` treats
as fatal, so the compute party aborts — during the handshake as well as
during the payload phase — with nothing delivered and the pipeline never
runs.  A zero-byte read from peer closure and an oversized length header
are not detected (see `receive_data_failure_not_surfaced`). -/
theorem receive_data_ioErr_is_fatal :
    (∀ junkHdr : List ℕ,
      receive_data junkHdr ⟨[], .ioErr⟩ = (.err, ⟨[], .ioErr⟩)) ∧
    (∀ (rest : FrameStream) (failAt : Option ℕ),
      serverIncomeGoalMain (none :: rest) failAt =
        ([], some (.transportRecv 0))) ∧
    (∀ (rest : FrameStream) (failAt : Option ℕ),
      serverIncomeGoalMain
          ([some .params, some .pubKey, some .relinKey, some .galoisKey,
            none] ++ rest) failAt =
        ([], some (.transportRecv 4))) :=
  ⟨fun _ => rfl, fun _ _ => rfl, fun _ _ => rfl⟩

/-- Delivery of the result frames is prefix-closed: the sequential
`send_data` calls with early return deliver an initial segment of the
fixed result sequence, the whole of it exactly when every send
succeeded. -/
theorem result_delivery_prefix (frames : List Blob) (i : ℕ)
    (failAt : Option ℕ) :
    (sendAllFrom frames i failAt).1 <+: frames ∧
    ((sendAllFrom frames i failAt).2 = true →
      (sendAllFrom frames i failAt).1 = frames) := by
  induction frames generalizing i with
  | nil => simp [sendAllFrom]
  | cons f rest ih =>
    rw [sendAllFrom]
    split_ifs with hf
    · exact ⟨by simp, by simp⟩
    · obtain ⟨hp, hfull⟩ := ih (i + 1)
      exact ⟨List.cons_prefix_cons.mpr ⟨rfl, hp⟩,
        fun hok => by rw [hfull hok]⟩

/-- C6 counterexample: the claim says no run delivers a proper non-empty
prefix of the result frames and then errors.  But when the second
`send_data` fails, the owner has already successfully received the first
result frame (the encrypted total expenses) and the session ends in
error. -/
theorem partial_result_delivery :
    serverIncomeGoalMain
        ((clientSentFramesGoal 150075 50000 45050 12000).map some)
        (some 1) =
      ([.cipher 57050], some .transportSend) ∧
    ([Blob.cipher 57050] : List Blob) ≠ [] ∧
    ([Blob.cipher 57050] : List Blob) ≠
      resultFrames (serverCompute ⟨150075, 50000, 45050, 12000⟩) := by
  refine ⟨by decide, by decide, by decide⟩

/-- C6 amended: result delivery is prefix-closed rather than
all-or-nothing — for every run of the compute party the delivered result
frames form an initial segment, in order, of the variant's fixed result
sequence; the full sequence is delivered exactly when the run ends
without error, but a send failure can leave a proper non-empty prefix
delivered (see `partial_result_delivery`). -/
theorem result_delivery_prefix_of_fixed_sequence (inp : GoalInputs)
    (failAt : Option ℕ) :
    (sendAllFrom (resultFrames (serverCompute inp)) 0 failAt).1 <+:
      resultFrames (serverCompute inp) ∧
    ((sendAllFrom (resultFrames (serverCompute inp)) 0 failAt).2 = true →
      (sendAllFrom (resultFrames (serverCompute inp)) 0 failAt).1 =
        resultFrames (serverCompute inp)) :=
  result_delivery_prefix _ 0 failAt

/-- Witness for `result_delivery_prefix_of_fixed_sequence` on a
fault-free run. -/
theorem result_delivery_prefix_witness :
    (sendAllFrom (resultFrames
        (serverCompute ⟨150075, 50000, 45050, 12000⟩)) 0 none).2 = true ∧
    (sendAllFrom (resultFrames
        (serverCompute ⟨150075, 50000, 45050, 12000⟩)) 0 none).1 =
      resultFrames (serverCompute ⟨150075, 50000, 45050, 12000⟩) :=
  ⟨by decide,
   (result_delivery_prefix_of_fixed_sequence
     ⟨150075, 50000, 45050, 12000⟩ none).2 (by decide)⟩

/-- A `recvLoad` step either consumes one parsable frame or fails with a
transport or parse error at its stage. -/
theorem recvLoad_cases (expected : Blob) (stage : ℕ) (s : FrameStream) :
    (∃ b rest, s = some b :: rest ∧ b.loadsAs expected = true ∧
      recvLoad expected stage s = .ok (b, rest)) ∨
    recvLoad expected stage s = .error (.transportRecv stage) ∨
    recvLoad expected stage s = .error (.parse stage) := by
  match s with
  | [] => exact Or.inr (Or.inl rfl)
  | none :: rest => exact Or.inr (Or.inl rfl)
  | some b :: rest =>
    by_cases hb : b.loadsAs expected = true
    · exact Or.inl ⟨b, rest, rfl, hb, by simp [recvLoad, hb]⟩
    · exact Or.inr (Or.inr (by simp [recvLoad, hb]))

/-- Only a serialized relinearization key loads as one. -/
theorem loadsAs_relinKey (b : Blob) :
    b.loadsAs .relinKey = true ↔ b = .relinKey := by
  cases b <;> simp [Blob.loadsAs]

/-- A handshake failure aborts the whole run with nothing delivered. -/
theorem serverIncomeGoalMain_of_handshake_error (s : FrameStream)
    (failAt : Option ℕ) (e : ServerErr)
    (h : serverHandshake s = .error e) :
    serverIncomeGoalMain s failAt = ([], some e) := by
  simp [serverIncomeGoalMain, h]

/-- C7: For every session in which the relinearization-key frame is
missing from the handshake — the frame at the third handshake position is
absent or is not a relinearization key — the compute party rejects the
session with an error raised at one of the first three receives (numbers
0-2), before any payload input frame is read (payload receives are
numbered 4-7 and are never reached), and never proceeds to the evaluation
pipeline: nothing is delivered. -/
theorem missing_relin_key_rejected (s : FrameStream) (failAt : Option ℕ)
    (h : s.get? 2 ≠ some (some .relinKey)) :
    ∃ e, (∃ k, k ≤ 2 ∧
        (e = ServerErr.transportRecv k ∨ e = ServerErr.parse k)) ∧
      serverHandshake s = .error e ∧
      serverIncomeGoalMain s failAt = ([], some e) := by
  have step : ∀ e : ServerErr, serverHandshake s = .error e →
      (∃ k, k ≤ 2 ∧
        (e = ServerErr.transportRecv k ∨ e = ServerErr.parse k)) →
      ∃ e, (∃ k, k ≤ 2 ∧
          (e = ServerErr.transportRecv k ∨ e = ServerErr.parse k)) ∧
        serverHandshake s = .error e ∧
        serverIncomeGoalMain s failAt = ([], some e) :=
    fun e he hk =>
      ⟨e, hk, he, serverIncomeGoalMain_of_handshake_error s failAt e he⟩
  rcases recvLoad_cases .params 0 s with ⟨b0, r0, hs0, hl0, hok0⟩ | h0 | h0
  · rcases recvLoad_cases .pubKey 1 r0 with ⟨b1, r1, hs1, hl1, hok1⟩ | h1 | h1
    · rcases recvLoad_cases .relinKey 2 r1 with ⟨b2, r2, hs2, hl2, hok2⟩ | h2 | h2
      · exfalso
        apply h
        rw [hs0, hs1, hs2, (loadsAs_relinKey b2).mp hl2]
        rfl
      · exact step _ (by simp [serverHandshake, hok0, hok1, h2, Bind.bind, Except.bind, Functor.map, Except.map])
          ⟨2, by omega, Or.inl rfl⟩
      · exact step _ (by simp [serverHandshake, hok0, hok1, h2, Bind.bind, Except.bind, Functor.map, Except.map])
          ⟨2, by omega, Or.inr rfl⟩
    · exact step _ (by simp [serverHandshake, hok0, h1, Bind.bind, Except.bind, Functor.map, Except.map])
        ⟨1, by omega, Or.inl rfl⟩
    · exact step _ (by simp [serverHandshake, hok0, h1, Bind.bind, Except.bind, Functor.map, Except.map])
        ⟨1, by omega, Or.inr rfl⟩
  · exact step _ (by simp [serverHandshake, h0, Bind.bind, Except.bind, Functor.map, Except.map]) ⟨0, by omega, Or.inl rfl⟩
  · exact step _ (by simp [serverHandshake, h0, Bind.bind, Except.bind, Functor.map, Except.map]) ⟨0, by omega, Or.inr rfl⟩

/-- Witness for `missing_relin_key_rejected`: the owner sends parameters
and the public key, then skips straight to the Galois key. -/
theorem missing_relin_key_rejected_witness :
    ([some Blob.params, some Blob.pubKey, some Blob.galoisKey,
        some (Blob.cipher 150075)] : FrameStream).get? 2 ≠
      some (some Blob.relinKey) ∧
    ∃ e, (∃ k, k ≤ 2 ∧
        (e = ServerErr.transportRecv k ∨ e = ServerErr.parse k)) ∧
      serverHandshake [some Blob.params, some Blob.pubKey,
        some Blob.galoisKey, some (Blob.cipher 150075)] = .error e ∧
      serverIncomeGoalMain [some Blob.params, some Blob.pubKey,
        some Blob.galoisKey, some (Blob.cipher 150075)] none =
        ([], some e) :=
  ⟨by decide,
   missing_relin_key_rejected [some Blob.params, some Blob.pubKey,
     some Blob.galoisKey, some (Blob.cipher 150075)] none (by decide)⟩

/-- C3: For every decimal amount `d` and scale factor `s > 0`, `toScaled`
rounds `d * s` to a nearest integer with ties rounded half away from zero
and records scale exponent 1, and the round trip
`fromScaled (toScaled d s) s` differs from `d` by at most one unit of the
smallest representable increment `1 / s`. -/
theorem toScaled_fromScaled_round_trip (d s : ℚ) (hs : 0 < s) :
    (toScaled d s).exponent = 1 ∧
    (∀ m : ℤ, |((toScaled d s).value : ℚ) - d * s| ≤ |(m : ℚ) - d * s|) ∧
    (∀ k : ℤ, 0 ≤ k → d * s = (k : ℚ) + 1 / 2 →
      (toScaled d s).value = k + 1) ∧
    (∀ k : ℤ, 0 ≤ k → d * s = -((k : ℚ) + 1 / 2) →
      (toScaled d s).value = -(k + 1)) ∧
    |fromScaled (toScaled d s) s - d| ≤ 1 / s := by
  refine ⟨rfl, fun m => roundHalfAway_nearest (d * s) m, ?_, ?_, ?_⟩
  · intro k hk h
    have hk' : (0 : ℚ) ≤ (k : ℚ) := by exact_mod_cast hk
    show roundHalfAway (d * s) = k + 1
    rw [roundHalfAway, h, if_pos (by linarith)]
    rw [show ((k : ℚ) + 1 / 2 + 1 / 2 : ℚ) = ((k + 1 : ℤ) : ℚ) by push_cast; ring]
    exact Int.floor_intCast _
  · intro k hk h
    have hk' : (0 : ℚ) ≤ (k : ℚ) := by exact_mod_cast hk
    show roundHalfAway (d * s) = -(k + 1)
    rw [roundHalfAway, h, if_neg (not_le.mpr (by linarith))]
    rw [show (-(-((k : ℚ) + 1 / 2)) + 1 / 2 : ℚ) = ((k + 1 : ℤ) : ℚ) by push_cast; ring]
    rw [Int.floor_intCast]
  · have hs0 : s ≠ 0 := ne_of_gt hs
    have hb := abs_roundHalfAway_sub_le (d * s)
    have hrw : fromScaled (toScaled d s) s - d =
        ((roundHalfAway (d * s) : ℚ) - d * s) / s := by
      simp only [fromScaled, toScaled, pow_one]
      field_simp
      ring
    rw [hrw, abs_div, abs_of_pos hs, div_le_div_iff_of_pos_right hs]
    linarith

/-- Witness for `toScaled_fromScaled_round_trip` at `d = 1500.75`,
`s = 100`. -/
theorem toScaled_fromScaled_round_trip_witness :
    (0 : ℚ) < 100 ∧
    |fromScaled (toScaled (150075 / 100) 100) 100 - 150075 / 100| ≤ 1 / 100 :=
  ⟨by norm_num,
   (toScaled_fromScaled_round_trip (150075 / 100) 100 (by norm_num)).2.2.2.2⟩

/-- The length header occupies exactly `sizeof(size_t)` = 8 bytes. -/
theorem bytesOfSize_length (n : ℕ) : (bytesOfSize n).length = 8 := rfl

/-- Reading back a stored `size_t` below `2 ^ 64` recovers it. -/
theorem sizeOfBytes_bytesOfSize (n : ℕ) (h : n < 18446744073709551616) :
    sizeOfBytes (bytesOfSize n) = n := by
  simp only [bytesOfSize, sizeOfBytes, List.foldr]
  omega

/-- C4: For every byte sequence `x` — length 0, 1 or multi-kilobyte —
receiving a frame from a channel on which `send_data x` was written
reproduces `x` exactly: `send_data` writes a platform-word-sized unsigned
length header equal to `x`'s byte length followed by exactly that many
payload bytes, and `receive_data` reads the header and then exactly that
many bytes, leaving the rest of the stream untouched. -/
theorem frame_round_trip (x rest junkHdr : List ℕ) (f : Fault)
    (h : x.length < 18446744073709551616) :
    receive_data junkHdr ⟨send_data x ++ rest, f⟩ =
      (.frame x, ⟨rest, f⟩) := by
  have hlen : (bytesOfSize x.length).length = 8 := bytesOfSize_length _
  have hdata : send_data x ++ rest = bytesOfSize x.length ++ (x ++ rest) := by
    simp [send_data]
  have h8 : recvWaitAll 8 ⟨bytesOfSize x.length ++ (x ++ rest), f⟩ =
      (.ret (bytesOfSize x.length), ⟨x ++ rest, f⟩) := by
    rw [recvWaitAll, if_pos (by simp [hlen])]
    rw [List.take_left' hlen, List.drop_left' hlen]
  have hhdr : ((bytesOfSize x.length ++ junkHdr.drop
      (bytesOfSize x.length).length).take 8) = bytesOfSize x.length :=
    List.take_left' hlen
  have hx : recvWaitAll x.length ⟨x ++ rest, f⟩ =
      (.ret x, ⟨rest, f⟩) := by
    rw [recvWaitAll, if_pos (by simp)]
    rw [List.take_left x rest, List.drop_left x rest]
  rw [receive_data, hdata, h8]
  simp only [hhdr, sizeOfBytes_bytesOfSize x.length h, hx,
    Nat.sub_self, List.replicate_zero, List.append_nil]

/-- Witness for `frame_round_trip` on a 4096-byte payload. -/
theorem frame_round_trip_witness :
    (List.replicate 4096 7).length < 18446744073709551616 ∧
    receive_data (List.replicate 8 0)
        ⟨send_data (List.replicate 4096 7) ++ [9], .live⟩ =
      (.frame (List.replicate 4096 7), ⟨[9], .live⟩) :=
  ⟨by rw [List.length_replicate]; norm_num,
   frame_round_trip (List.replicate 4096 7) [9] (List.replicate 8 0) .live
     (by rw [List.length_replicate]; norm_num)⟩

/-- C1: For the income/expense/goal session variant, after the handshake
the compute party computes, for every received quadruple of inputs
(encrypted total income, plaintext savings goal, encrypted essential
expenses, encrypted non-essential expenses), exactly
`totalExpenses = add(essential, nonEssential)`,
`netIncome = sub(totalIncome, totalExpenses)` and
`goalDifference = sub(netIncome, savingsGoalPlaintext)` on the underlying
scaled integers; in particular income 150075, essential 45050,
non-essential 12000, goal 50000 yield totalExpenses 57050 and
goalDifference (150075 - 57050) - 50000 = 43025. -/
theorem income_goal_pipeline_correct :
    (∀ i g e n : ℤ,
      serverIncomeGoalMain ((clientSentFramesGoal i g e n).map some) none =
        ([.cipher (e + n), .cipher (i - (e + n)),
          .cipher (i - (e + n) - g), .cipher e, .cipher n], none)) ∧
    serverIncomeGoalMain
        ((clientSentFramesGoal 150075 50000 45050 12000).map some) none =
      ([.cipher 57050, .cipher 93025, .cipher 43025,
        .cipher 45050, .cipher 12000], none) := by
  refine ⟨fun i g e n => rfl, by decide⟩

/-- C2: In the two-input session variant, the compute party computes
`savingsContribution = reduce(mulConstant(income, savingsRatePlaintext))`
with both operands at scale exponent 1, so the raw product carries scale
exponent 2 and the owner descales it by `scaleFactor ^ 2` before display;
income 150075 and rate 15 (scale factor 100) give raw product 2251125,
which descales to 225.1125. -/
theorem savings_contribution_correct :
    savingsRateScaled = 15 ∧
    (∀ income expense : ℤ,
      (serverTwoInputCompute income expense).2 =
        relinearize (multiplyPlain income savingsRateScaled) ∧
      combineMul ⟨income, 1⟩ ⟨savingsRateScaled, 1⟩ =
        ⟨income * savingsRateScaled, 2⟩) ∧
    (∀ expense : ℤ, (serverTwoInputCompute 150075 expense).2 = 2251125) ∧
    fromScaled ⟨2251125, 2⟩ SCALE_FACTOR = 225.1125 := by
  have hrate : savingsRateScaled = 15 := by
    have h : (15 / 100 : ℚ) * SCALE_FACTOR = 15 := by norm_num [SCALE_FACTOR]
    rw [savingsRateScaled, h, roundHalfAway, if_pos (by norm_num)]
    rw [show (15 : ℚ) + 1 / 2 = 31 / 2 by norm_num, Int.floor_eq_iff]
    norm_num
  refine ⟨hrate, fun income expense => ⟨rfl, rfl⟩, fun expense => ?_, ?_⟩
  · show relinearize (multiplyPlain 150075 savingsRateScaled) = 2251125
    rw [hrate]; rfl
  · norm_num [fromScaled, SCALE_FACTOR]

/-- C8 counterexample: the claim requires the combine operations the
compute party uses to fail with a `ScaleMismatch` error whenever the
operands' scale exponents differ.  But the operation the code actually
performs — SEAL's slot-wise add/sub — has no representation of the
exponent and no failure path: applied to the values of an exponent-1
amount 100 and an exponent-2 amount 100 it silently produces 200, where
the codec contract stated by the claim (`combineAdd`/`combineSub`,
modelled from the spec) fails. -/
theorem evaluator_add_ignores_exponent :
    evaluatorAdd (ScaledAmount.mk 100 1).value (ScaledAmount.mk 100 2).value =
      200 ∧
    evaluatorSub (ScaledAmount.mk 100 1).value (ScaledAmount.mk 100 2).value =
      0 ∧
    combineAdd ⟨100, 1⟩ ⟨100, 2⟩ = .error .scaleMismatch ∧
    combineSub ⟨100, 1⟩ ⟨100, 2⟩ = .error .scaleMismatch := by
  refine ⟨by decide, by decide, rfl, rfl⟩

/-- C8 amended: the code's homomorphic add/sub carry no exponent and
cannot fail with `ScaleMismatch`; the exponent discipline holds by
construction instead — every add/sub of the income/expense/goal pipeline
combines operands the protocol fixes at scale exponent 1, so the
spec-modelled checked combines all succeed with exponent 1 unchanged, and
their values coincide with what the server actually computes. -/
theorem pipeline_exponent_discipline (i g e n : ℤ) :
    combineAdd ⟨e, 1⟩ ⟨n, 1⟩ = .ok ⟨e + n, 1⟩ ∧
    combineSub ⟨i, 1⟩ ⟨e + n, 1⟩ = .ok ⟨i - (e + n), 1⟩ ∧
    combineSub ⟨i - (e + n), 1⟩ ⟨g, 1⟩ = .ok ⟨i - (e + n) - g, 1⟩ ∧
    serverCompute ⟨i, g, e, n⟩ =
      ⟨e + n, i - (e + n), i - (e + n) - g, e, n⟩ := by
  refine ⟨rfl, rfl, rfl, rfl⟩

/-- C9: For every run of the owner-side process — either variant — the
secret key is never serialized to the transport: every frame the owner
writes is the scheme parameters, the public key, the relinearization
keys, the Galois keys, or an encrypted/encoded payload, and none is the
serialization of the secret key. -/
theorem secret_key_never_sent (income goal essential nonEssential
    expense : ℤ) :
    (∀ b ∈ clientSentFramesGoal income goal essential nonEssential,
      b ≠ Blob.secretKey) ∧
    (∀ b ∈ clientSentFramesTwoInput income expense,
      b ≠ Blob.secretKey) ∧
    (∀ b ∈ clientSentFramesGoal income goal essential nonEssential,
      b = .params ∨ b = .pubKey ∨ b = .relinKey ∨ b = .galoisKey ∨
      (∃ v, b = .cipher v) ∨ (∃ v, b = .plain v)) := by
  refine ⟨?_, ?_, ?_⟩ <;> intro b hb <;> fin_cases hb <;> simp

/-- Witness for `secret_key_never_sent` at the first frame of a concrete
run. -/
theorem secret_key_never_sent_witness :
    Blob.params ∈ clientSentFramesGoal 150075 50000 45050 12000 ∧
    Blob.params ≠ Blob.secretKey :=
  ⟨by decide,
   (secret_key_never_sent 150075 50000 45050 12000 60130).1
     Blob.params (by decide)⟩

/-- C10: In the income/expense/goal variant the compute party returns the
received encrypted essential- and non-essential-expense ciphertexts
unchanged as the fourth and fifth result frames — each is the very frame
the owner sent (positions 6 and 7 of the owner's sequence), with no
homomorphic operation applied — so the owner's decrypted expense
breakdown equals the scaled values it originally encrypted. -/
theorem expense_ciphertexts_echoed (i g e n : ℤ) :
    (serverIncomeGoalMain
        ((clientSentFramesGoal i g e n).map some) none).1.get? 3 =
      (clientSentFramesGoal i g e n).get? 6 ∧
    (serverIncomeGoalMain
        ((clientSentFramesGoal i g e n).map some) none).1.get? 4 =
      (clientSentFramesGoal i g e n).get? 7 ∧
    clientDecodeCipher ((serverIncomeGoalMain
        ((clientSentFramesGoal i g e n).map some) none).1.get? 3) =
      some e ∧
    clientDecodeCipher ((serverIncomeGoalMain
        ((clientSentFramesGoal i g e n).map some) none).1.get? 4) =
      some n ∧
    (serverCompute ⟨i, g, e, n⟩).essentialEcho = e ∧
    (serverCompute ⟨i, g, e, n⟩).nonEssentialEcho = n := by
  refine ⟨rfl, rfl, rfl, rfl, rfl, rfl⟩

end FinTool
